import Mathlib

/-!
# etcd-aws-tools: bootstrap resolver and lifecycle reconciler

A shallow embedding of the two programs of the repository,
`gen-etcd-discovery-params/main.go` and `monitor-asg-lifecycle/main.go`.

* Go functions that return become Lean functions into `Run`, which also
  records the two ways a Go call can fail to return: `log.Fatalf`
  (process exit) and a runtime panic.
* Everything the programs obtain from outside (the EC2 cluster library, the
  HTTP transport, the file system, the JSON decoder) is a field of `Env` or
  `Cluster`: an arbitrary function or value, so that theorems quantify over
  every behaviour of the outside world.
* Each invocation of the admin client is appended to a list of `ApiCall`s,
  and the admin client returns, with its result, the `HttpRequest`s it handed
  to `client.Do`: the requests that were really sent.  The theorems speak
  about the requests a run issues through these two lists.
* Log lines are not modelled.
-/

namespace EtcdAwsTools

/-! ## Data model -/

/-- Result of running Go code: it returns a value, exits through
`log.Fatalf`, or panics. -/
inductive Run (α : Type) where
  | done (a : α)
  | fatal (msg : String)
  | panic (msg : String)
deriving DecidableEq, Repr

/-- The fields of `ec2.Instance` the programs read.  `PrivateDnsName` is a Go
pointer the source tests against `nil`, hence an `Option`. -/
structure Instance where
  InstanceId : String
  PrivateDnsName : Option String
deriving DecidableEq, Repr

/-- Go struct `etcdLeaderInfo` (time stamps kept as text). -/
structure etcdLeaderInfo where
  Leader : String := ""
  Uptime : String := ""
  StartTime : String := ""
  RecvAppendRequestCnt : Int := 0
  RecvPkgRate : Int := 0
  RecvBandwidthRate : Int := 0
  SendAppendRequestCnt : Int := 0
deriving DecidableEq, Repr

/-- Go struct `etcdState`. -/
structure etcdState where
  Name : String := ""
  ID : String := ""
  State : String := ""
  StartTime : String := ""
  LeaderInfo : etcdLeaderInfo := {}
deriving DecidableEq, Repr

/-- Go struct `etcdMember`. -/
structure etcdMember where
  ID : String := ""
  Name : String := ""
  PeerURLs : List String := []
  ClientURLs : List String := []
deriving DecidableEq, Repr

/-- Go struct `etcdMembers`. -/
structure etcdMembers where
  Members : List etcdMember := []
deriving DecidableEq, Repr

/-- The `tls.Config` built by `getTlsConfig`: the client certificate and the
PEM text the root pool is filled from. -/
structure TlsConfig where
  Certificates : List String
  RootCAs : String
deriving DecidableEq, Repr

/-- The request handed to `client.Do`: method, URL, the `Content-Type` header
when one is set, the body (the member that was marshalled to JSON), and the
TLS configuration of the transport (`none` for `http.DefaultClient`). -/
structure HttpRequest where
  method : String
  url : String
  contentType : Option String
  body : Option etcdMember
  tls : Option TlsConfig
deriving DecidableEq, Repr

/-- The arguments of one invocation of `getApiResponseWithBody`. -/
structure ApiCall where
  privateIpAddress : String
  instanceId : String
  path : String
  method : String
  bodyType : String
  body : Option etcdMember
deriving DecidableEq, Repr

/-- The process-wide variables of `main.go` together with the outside world
the admin client talks to. -/
structure Env where
  peerProtocol : String
  clientProtocol : String
  etcdCertFile : String
  etcdKeyFile : String
  etcdTrustedCaFile : String
  clientTlsEnabled : Bool
  /-- Go `tls.LoadX509KeyPair certFile keyFile`. -/
  LoadX509KeyPair : String → String → Except String String
  /-- Go `ioutil.ReadFile name`. -/
  ReadFile : String → Except String String
  /-- Go `http.NewRequest method url body`: the error, if it fails. -/
  NewRequest : String → String → Option String
  /-- Go `client.Do req`: an error or the response body. -/
  Do : HttpRequest → Except String String
  /-- Go `json.NewDecoder(resp.Body).Decode(&nodeState)`. -/
  decodeState : String → Except String etcdState
  /-- Go `json.NewDecoder(resp.Body).Decode(&members)`. -/
  decodeMembers : String → Except String etcdMembers

/-- The methods of `ec2cluster.Cluster` the programs call, as their results. -/
structure Cluster where
  Instance : Except String Instance
  Members : Except String (List EtcdAwsTools.Instance)
  /-- The ARN of the autoscaling group when `s.AutoscalingGroup()` is not nil. -/
  AutoscalingGroup : Option String

/-! ## Admin client (identical in both programs) -/

/-- Go `getTlsConfig`. -/
def getTlsConfig (env : Env) : Except String TlsConfig :=
  match env.LoadX509KeyPair env.etcdCertFile env.etcdKeyFile with
  | .error err => .error ("ERROR: " ++ err)
  | .ok cert =>
    match env.ReadFile env.etcdTrustedCaFile with
    | .error err => .error ("ERROR: " ++ err)
    | .ok caCert => .ok { Certificates := [cert], RootCAs := caCert }

/-- The text of the error `getApiResponseWithBody` returns. -/
def apiError (env : Env) (c : ApiCall) (err : String) : String :=
  c.instanceId ++ ": " ++ c.method ++ " " ++ env.clientProtocol ++ "://" ++
    c.privateIpAddress ++ ":2379/v2/" ++ c.path ++ ": " ++ err

/-- Go `getApiResponseWithBody`: what it returns, paired with the requests it
handed to `client.Do` (none when `http.NewRequest` fails, else one). -/
def getApiResponseWithBody (env : Env) (c : ApiCall) :
    Run (Except String String × List HttpRequest) :=
  let url := env.clientProtocol ++ "://" ++ c.privateIpAddress ++ ":2379/v2/" ++ c.path
  match env.NewRequest c.method url with
  | some err => .done (.error (apiError env c err), [])
  | none =>
    let contentType := if c.bodyType ≠ "" then some c.bodyType else none
    if env.clientTlsEnabled then
      match getTlsConfig env with
      | .error err => .fatal ("Error in getTlsConfig: " ++ err)
      | .ok tlsConfig =>
        let req : HttpRequest := ⟨c.method, url, contentType, c.body, some tlsConfig⟩
        match env.Do req with
        | .error err => .done (.error (apiError env c err), [req])
        | .ok resp => .done (.ok resp, [req])
    else
      let req : HttpRequest := ⟨c.method, url, contentType, c.body, none⟩
      match env.Do req with
      | .error err => .done (.error (apiError env c err), [req])
      | .ok resp => .done (.ok resp, [req])

/-- The call `getApiResponse` forwards to `getApiResponseWithBody`. -/
def apiCall (privateIpAddress instanceId path method : String) : ApiCall :=
  ⟨privateIpAddress, instanceId, path, method, "", none⟩

/-- Go `getApiResponse`. -/
def getApiResponse (env : Env) (privateIpAddress instanceId path method : String) :
    Run (Except String String × List HttpRequest) :=
  getApiResponseWithBody env (apiCall privateIpAddress instanceId path method)

/-! ## gen-etcd-discovery-params -/

/-- The variables the loop of `buildCluster` updates, the admin-client calls
made so far, and the requests sent so far. -/
structure Scan where
  initialClusterState : String
  initialCluster : List String
  calls : List ApiCall
  sent : List HttpRequest
deriving DecidableEq, Repr

/-- The pre-join call of `buildCluster` to the peer `(dns, instanceId)`. -/
def joinCall (env : Env) (localInstanceId localDns dns instanceId : String) : ApiCall :=
  { privateIpAddress := dns
    instanceId := instanceId
    path := "members"
    method := "POST"
    bodyType := "application/json"
    body := some { Name := localInstanceId,
                   PeerURLs := [env.peerProtocol ++ "://" ++ localDns ++ ":2380"] } }

/-- One iteration of the `for` loop of `buildCluster`. -/
def buildClusterStep (env : Env) (localInstance : Instance) (st : Scan) (inst : Instance) :
    Run Scan :=
  match inst.PrivateDnsName with
  | none => .done st
  | some dns =>
    let st1 : Scan := { st with initialCluster := st.initialCluster ++
      [inst.InstanceId ++ "=" ++ env.peerProtocol ++ "://" ++ dns ++ ":2380"] }
    if inst.InstanceId = localInstance.InstanceId then .done st1
    else
      match getApiResponse env dns inst.InstanceId "stats/self" "GET" with
      | .fatal msg => .fatal msg
      | .panic msg => .panic msg
      | .done (resp, reqs) =>
        let st2 : Scan := { st1 with
          calls := st1.calls ++ [apiCall dns inst.InstanceId "stats/self" "GET"]
          sent := st1.sent ++ reqs }
        match resp with
        | .error _ => .done st2
        | .ok body =>
          match env.decodeState body with
          | .error _ => .done st2
          | .ok nodeState =>
            if nodeState.LeaderInfo.Leader = "" then .done st2
            else if st2.initialClusterState ≠ "existing" then
              match localInstance.PrivateDnsName with
              | none => .panic "invalid memory address or nil pointer dereference"
              | some localDns =>
                let post := joinCall env localInstance.InstanceId localDns dns inst.InstanceId
                match getApiResponseWithBody env post with
                | .fatal msg => .fatal msg
                | .panic msg => .panic msg
                | .done (_, reqs2) =>
                  .done { st2 with initialClusterState := "existing",
                                   calls := st2.calls ++ [post],
                                   sent := st2.sent ++ reqs2 }
            else .done st2

/-- The `for` loop of `buildCluster` over the remaining instances. -/
def buildClusterLoop (env : Env) (localInstance : Instance) : Scan → List Instance → Run Scan
  | st, [] => .done st
  | st, inst :: rest =>
    match buildClusterStep env localInstance st inst with
    | .done st1 => buildClusterLoop env localInstance st1 rest
    | .fatal msg => .fatal msg
    | .panic msg => .panic msg

/-- What `buildCluster` returns, with the admin-client calls it made and the
requests that were sent. -/
structure BuildResult where
  initialClusterState : String
  initialCluster : List String
  err : Option String
  calls : List ApiCall
  sent : List HttpRequest
deriving DecidableEq, Repr

/-- Go `buildCluster`. -/
def buildCluster (env : Env) (s : Cluster) : Run BuildResult :=
  match s.Instance with
  | .error err => .done ⟨"", [], some err, [], []⟩
  | .ok localInstance =>
    match s.Members with
    | .error err => .done ⟨"", [], some ("list members: " ++ err), [], []⟩
    | .ok clusterInstances =>
      match buildClusterLoop env localInstance ⟨"new", [], [], []⟩ clusterInstances with
      | .done st =>
        .done ⟨st.initialClusterState, st.initialCluster, none, st.calls, st.sent⟩
      | .fatal msg => .fatal msg
      | .panic msg => .panic msg

/-- The command-line flags of `gen-etcd-discovery-params` after `flag.Parse`
(environment-variable defaults already applied). -/
structure Flags where
  instanceID : String
  clusterTagName : String
  etcdKeyFile : String
  etcdCertFile : String
  etcdTrustedCaFile : String
deriving DecidableEq, Repr

/-- The process-wide variables as `main` sets them from the flags; `world`
supplies the outside world. -/
def mainEnv (flags : Flags) (world : Env) : Env :=
  let env : Env := { world with
    etcdKeyFile := flags.etcdKeyFile
    etcdCertFile := flags.etcdCertFile
    etcdTrustedCaFile := flags.etcdTrustedCaFile
    clientTlsEnabled := false
    clientProtocol := "http"
    peerProtocol := "http" }
  if flags.etcdCertFile ≠ "" then
    { env with clientTlsEnabled := true, clientProtocol := "https", peerProtocol := "https" }
  else env

/-- Go `main` of `gen-etcd-discovery-params`: the lines it prints.
`DiscoverInstanceID` is the result of `ec2cluster.DiscoverInstanceID()` and
`newCluster instanceID tagName` the cluster handle `s`. -/
def main (flags : Flags) (world : Env) (DiscoverInstanceID : Except String String)
    (newCluster : String → String → Cluster) : Run (List String) :=
  let env := mainEnv flags world
  match (if flags.instanceID = "" then DiscoverInstanceID else .ok flags.instanceID) with
  | .error err => .fatal ("ERROR: " ++ err)
  | .ok instanceID =>
    let s := newCluster instanceID flags.clusterTagName
    match s.Instance with
    | .error err => .fatal ("ERROR: " ++ err)
    | .ok localInstance =>
      match buildCluster env s with
      | .fatal msg => .fatal msg
      | .panic msg => .panic msg
      | .done r =>
        match localInstance.PrivateDnsName with
        | none => .panic "invalid memory address or nil pointer dereference"
        | some localDns =>
          let envs : List String := [
            "ETCD_NAME=" ++ localInstance.InstanceId,
            "ETCD_ADVERTISE_CLIENT_URLS=" ++ env.clientProtocol ++ "://" ++ localDns ++ ":2379",
            "ETCD_LISTEN_CLIENT_URLS=" ++ env.clientProtocol ++ "://0.0.0.0:2379",
            "ETCD_LISTEN_PEER_URLS=" ++ env.peerProtocol ++ "://0.0.0.0:2380",
            "ETCD_INITIAL_CLUSTER_STATE=" ++ r.initialClusterState,
            "ETCD_INITIAL_CLUSTER=" ++ String.intercalate "," r.initialCluster,
            "ETCD_INITIAL_ADVERTISE_PEER_URLS=" ++ env.peerProtocol ++ "://" ++ localDns ++ ":2380" ]
          match s.AutoscalingGroup with
          | some arn => .done (envs ++ ["ETCD_INITIAL_CLUSTER_TOKEN=" ++ arn])
          | none => .done envs

/-! ## monitor-asg-lifecycle -/

/-- The fields of `ec2cluster.LifecycleMessage` the handler reads. -/
structure LifecycleMessage where
  LifecycleTransition : String
  EC2InstanceID : String
deriving DecidableEq, Repr

/-- What `handleLifecycleEvent` returns, with the admin-client calls it made
and the requests that were sent. -/
structure HandlerResult where
  shouldContinue : Bool
  err : Option String
  calls : List ApiCall
  sent : List HttpRequest
deriving DecidableEq, Repr

/-- The loop of `handleLifecycleEvent` over `members.Members`. -/
def findMemberID (members : List etcdMember) (EC2InstanceID : String) : String :=
  members.foldl
    (fun memberID member => if member.Name = EC2InstanceID then member.ID else memberID) ""

/-- Go `handleLifecycleEvent`; `localInstance` is the process-wide variable. -/
def handleLifecycleEvent (env : Env) (localInstance : Instance) (m : LifecycleMessage) :
    Run HandlerResult :=
  if m.LifecycleTransition ≠ "autoscaling:EC2_INSTANCE_TERMINATING" then
    .done ⟨true, none, [], []⟩
  else
    match localInstance.PrivateDnsName with
    | none => .panic "invalid memory address or nil pointer dereference"
    | some dns =>
      let get := apiCall dns localInstance.InstanceId "members" "GET"
      match getApiResponse env dns localInstance.InstanceId "members" "GET" with
      | .fatal msg => .fatal msg
      | .panic msg => .panic msg
      | .done (.error err, reqs) => .done ⟨false, some err, [get], reqs⟩
      | .done (.ok body, reqs) =>
        match env.decodeMembers body with
        | .error err => .done ⟨false, some err, [get], reqs⟩
        | .ok members =>
          let memberID := findMemberID members.Members m.EC2InstanceID
          if memberID = "" then .done ⟨true, none, [get], reqs⟩
          else
            let del := apiCall dns localInstance.InstanceId ("members/" ++ memberID) "DELETE"
            match getApiResponse env dns localInstance.InstanceId
                ("members/" ++ memberID) "DELETE" with
            | .fatal msg => .fatal msg
            | .panic msg => .panic msg
            | .done (.error err, reqs2) => .done ⟨false, some err, [get, del], reqs ++ reqs2⟩
            | .done (.ok _, reqs2) => .done ⟨false, none, [get, del], reqs ++ reqs2⟩

/-- An error value of the `ec2cluster` library: the sentinel
`ErrLifecycleHookNotFound`, or any other error. -/
inductive ClusterError where
  | ErrLifecycleHookNotFound
  | other (msg : String)
deriving DecidableEq, Repr

/-- Where `watchLifecycleEvents` is: about to call
`s.LifecycleEventQueueURL()`, inside `s.WatchLifecycleEvents(queueUrl, _)`,
exited through `log.Fatalf`, or panicked. -/
inductive LoopState where
  | awaitingSource
  | consuming (queueUrl : String)
  | exited (msg : String)
  | panicked (msg : String)
deriving DecidableEq, Repr

/-- What the library hands back to `watchLifecycleEvents`: the pair returned
by `s.LifecycleEventQueueURL()`, or the error returned by
`s.WatchLifecycleEvents`. -/
inductive LoopInput where
  | queueURL (queueUrl : String) (err : Option ClusterError)
  | watchReturned (err : Option String)
deriving DecidableEq, Repr

/-- What `watchLifecycleEvents` does to the outside between two inputs. -/
inductive Effect where
  | sleep (seconds : Nat)
  | startWatch (queueUrl : String)
deriving DecidableEq, Repr

/-- The body of the `for` loop of `watchLifecycleEvents`, cut at its two
library calls: the next state and the effects, or `none` when the input is
not the answer to the call the state is waiting on. -/
def watchLifecycleEventsStep : LoopState → LoopInput → Option (LoopState × List Effect)
  | .awaitingSource, .queueURL queueUrl err =>
    match err with
    | some .ErrLifecycleHookNotFound => some (.awaitingSource, [.sleep 10])
    | some (.other msg) => some (.exited ("ERROR: LifecycleEventQueueUrl: " ++ msg), [])
    | none => some (.consuming queueUrl, [.startWatch queueUrl])
  | .consuming _, .watchReturned (some err) =>
    some (.exited ("ERROR: WatchLifecycleEvents: " ++ err), [])
  | .consuming _, .watchReturned none => some (.panicked "not reached", [])
  | _, _ => none

/-- Runs `watchLifecycleEvents` from a state over the successive inputs. -/
def watchLifecycleEvents : LoopState → List LoopInput → Option (LoopState × List Effect)
  | st, [] => some (st, [])
  | st, i :: rest =>
    match watchLifecycleEventsStep st i with
    | none => none
    | some (st1, eff) =>
      match watchLifecycleEvents st1 rest with
      | none => none
      | some (st2, eff2) => some (st2, eff ++ eff2)

/-! ## Vocabulary of the properties -/

/-- The outcome of probing the peer `inst` at address `dns` (the `GET` of
`stats/self` and the decoding of its body in `buildCluster`): the request
failed, the body did not decode, the body decoded with the given leader; or
the admin client did not return at all. -/
inductive ProbeOutcome where
  | unreachable (err : String)
  | undecodable (err : String)
  | decoded (leader : String)
  | aborted (msg : String)
deriving DecidableEq, Repr

/-- Classifies what the outside world answers to the probe of a peer. -/
def probe (env : Env) (inst : Instance) (dns : String) : ProbeOutcome :=
  match getApiResponse env dns inst.InstanceId "stats/self" "GET" with
  | .fatal msg => .aborted msg
  | .panic msg => .aborted msg
  | .done (.error err, _) => .unreachable err
  | .done (.ok body, _) =>
    match env.decodeState body with
    | .error err => .undecodable err
    | .ok nodeState => .decoded nodeState.LeaderInfo.Leader

/-- The probe of `inst` at `dns` failed: request error or undecodable body. -/
def probeFails (env : Env) (inst : Instance) (dns : String) : Bool :=
  match probe env inst dns with
  | .unreachable _ => true
  | .undecodable _ => true
  | _ => false

/-- The instance `inst` is not the local one, has an address, and its probe
decodes with a non-empty leader. -/
def reportsLeader (env : Env) (localInstance inst : Instance) : Bool :=
  match inst.PrivateDnsName with
  | none => false
  | some dns =>
    inst.InstanceId != localInstance.InstanceId &&
      (match probe env inst dns with
       | .decoded leader => leader != ""
       | _ => false)

/-- The instance `inst` gives no sign of a leader: it has no address, or it
is the local instance, or its probe is unreachable, undecodable, or decoded
with an empty leader. -/
def noLeaderSeen (env : Env) (localInstance inst : Instance) : Bool :=
  match inst.PrivateDnsName with
  | none => true
  | some dns =>
    inst.InstanceId == localInstance.InstanceId ||
      (match probe env inst dns with
       | .unreachable _ => true
       | .undecodable _ => true
       | .decoded leader => leader == ""
       | .aborted _ => false)

/-- The TLS material loads whenever TLS is switched on, so that every admin
client call returns (with a response or an error). -/
def tlsUsable (env : Env) : Bool :=
  !env.clientTlsEnabled ||
    (match getTlsConfig env with
     | .ok _ => true
     | .error _ => false)

/-- The peer entries of the instances that have an address, in order. -/
def expectedPeers (peerProtocol : String) (instances : List Instance) : List String :=
  instances.filterMap fun i =>
    i.PrivateDnsName.map fun dns => i.InstanceId ++ "=" ++ peerProtocol ++ "://" ++ dns ++ ":2380"

/-- The TLS configuration of the client that sends the requests: the one
`getTlsConfig` builds when TLS is switched on, none otherwise. -/
def clientTls (env : Env) : Option TlsConfig :=
  if env.clientTlsEnabled then
    match getTlsConfig env with
    | .ok tlsConfig => some tlsConfig
    | .error _ => none
  else none

/-- The request the admin client sends for the call `c`. -/
def wireRequest (env : Env) (c : ApiCall) : HttpRequest :=
  { method := c.method
    url := env.clientProtocol ++ "://" ++ c.privateIpAddress ++ ":2379/v2/" ++ c.path
    contentType := if c.bodyType ≠ "" then some c.bodyType else none
    body := c.body
    tls := clientTls env }

/-- The requests a returning call `c` of the admin client sends: its request
when `http.NewRequest` accepts it, nothing otherwise. -/
def sentBy (env : Env) (c : ApiCall) : List HttpRequest :=
  if env.NewRequest c.method
      (env.clientProtocol ++ "://" ++ c.privateIpAddress ++ ":2379/v2/" ++ c.path) = none then
    [wireRequest env c]
  else []

/-- The scan state after a probe that did not lead to a pre-join call. -/
def probed (env : Env) (st : Scan) (inst : Instance) (dns : String) : Scan :=
  { initialClusterState := st.initialClusterState
    initialCluster := st.initialCluster ++
      [inst.InstanceId ++ "=" ++ env.peerProtocol ++ "://" ++ dns ++ ":2380"]
    calls := st.calls ++ [apiCall dns inst.InstanceId "stats/self" "GET"]
    sent := st.sent ++ sentBy env (apiCall dns inst.InstanceId "stats/self" "GET") }

/-! ## Example worlds -/

/-- A world without TLS in which the peers at `b` and `c` answer with leader
`x`, the peer at `e` answers with no leader, the peer at `g` answers with a
body that does not decode, and every other request fails. -/
def demoEnv : Env :=
  { peerProtocol := "http"
    clientProtocol := "http"
    etcdCertFile := ""
    etcdKeyFile := ""
    etcdTrustedCaFile := ""
    clientTlsEnabled := false
    LoadX509KeyPair := fun _ _ => .error "open : no such file or directory"
    ReadFile := fun _ => .error "open : no such file or directory"
    NewRequest := fun _ _ => none
    Do := fun r =>
      if r.url = "http://b:2379/v2/stats/self" then .ok "leader x"
      else if r.url = "http://c:2379/v2/stats/self" then .ok "leader x"
      else if r.url = "http://e:2379/v2/stats/self" then .ok "no leader"
      else if r.url = "http://g:2379/v2/stats/self" then .ok "garbage"
      else .error "connection refused"
    decodeState := fun body =>
      if body = "leader x" then .ok { LeaderInfo := { Leader := "x" } }
      else if body = "no leader" then .ok {}
      else .error "invalid character"
    decodeMembers := fun _ => .error "invalid character" }

/-- The world of `demoEnv` with every peer down. -/
def downEnv : Env :=
  { demoEnv with Do := fun _ => .error "connection refused" }

/-- The local instance of the examples. -/
def demoLocal : Instance := ⟨"i-a", some "a"⟩

/-- A group in which no peer reports a leader. -/
def quietGroup : List Instance :=
  [⟨"i-a", some "a"⟩, ⟨"i-n", none⟩, ⟨"i-d", some "d"⟩, ⟨"i-e", some "e"⟩, ⟨"i-g", some "g"⟩]

/-- A group in which the peers `i-b` and `i-c` report a leader. -/
def liveGroup : List Instance :=
  [⟨"i-a", some "a"⟩, ⟨"i-n", none⟩, ⟨"i-d", some "d"⟩, ⟨"i-b", some "b"⟩, ⟨"i-c", some "c"⟩]

/-- A world without TLS in which every request is answered and the member
list decodes to `members`. -/
def membersEnv (members : List etcdMember) : Env :=
  { demoEnv with
    Do := fun _ => .ok "members"
    decodeMembers := fun _ => .ok ⟨members⟩ }

/-- The world of `membersEnv` in which `http.NewRequest` rejects the URL of
the member id `%zz`, which is not a valid URL escape. -/
def strictEnv (members : List etcdMember) : Env :=
  { membersEnv members with
    NewRequest := fun _ url =>
      if url = "http://a:2379/v2/members/%zz" then some "invalid URL escape" else none }

/-- A terminating event for the instance `i-t`. -/
def terminating : LifecycleMessage :=
  ⟨"autoscaling:EC2_INSTANCE_TERMINATING", "i-t"⟩

/-- The answer of `s.LifecycleEventQueueURL()` when the lifecycle hook does
not exist yet. -/
def hookNotFound (queueUrl : String) : LoopInput :=
  .queueURL queueUrl (some .ErrLifecycleHookNotFound)

/-- A cluster handle whose instance lookup succeeds and whose membership
enumeration fails. -/
def brokenCluster : Cluster :=
  { Instance := .ok demoLocal
    Members := .error "RequestLimitExceeded: Request limit exceeded."
    AutoscalingGroup := some "arn:aws:autoscaling:eu-west-1:1:autoScalingGroup:etcd" }

/-- A cluster handle with the local instance and one instance without an
address. -/
def smallCluster : Cluster :=
  { Instance := .ok demoLocal
    Members := .ok [demoLocal, ⟨"i-n", none⟩]
    AutoscalingGroup := some "arn:aws:autoscaling:eu-west-1:1:autoScalingGroup:etcd" }

/-- Flags naming the instance `i-a`, with the given certificate path. -/
def demoFlags (etcdCertFile : String) : Flags :=
  { instanceID := "i-a"
    clusterTagName := "aws:autoscaling:groupName"
    etcdKeyFile := ""
    etcdCertFile := etcdCertFile
    etcdTrustedCaFile := "" }

/-! ## Lemmas on the admin client and the scan -/

theorem getApiResponseWithBody_returns (env : Env) (c : ApiCall) (htls : tlsUsable env = true) :
    ∃ r, getApiResponseWithBody env c = .done r := by
  unfold getApiResponseWithBody
  unfold tlsUsable at htls
  simp only []
  split
  · exact ⟨_, rfl⟩
  · split
    · rename_i hon
      split
      · rename_i err hcfg
        simp [hon, hcfg] at htls
      · split <;> exact ⟨_, rfl⟩
    · split <;> exact ⟨_, rfl⟩

/-- A returning admin-client call sent its request exactly when
`http.NewRequest` accepted it. -/
theorem getApiResponseWithBody_sent (env : Env) (c : ApiCall) (res : Except String String)
    (reqs : List HttpRequest) (h : getApiResponseWithBody env c = .done (res, reqs)) :
    reqs = sentBy env c := by
  unfold getApiResponseWithBody at h
  unfold sentBy wireRequest clientTls
  simp only [] at h
  split at h
  · rename_i err hreq
    simp only [Run.done.injEq, Prod.mk.injEq] at h
    simp [hreq, h.2]
  · rename_i hreq
    split at h
    · rename_i hon
      split at h
      · simp at h
      · rename_i cfg hcfg
        split at h <;>
          (simp only [Run.done.injEq, Prod.mk.injEq] at h
           simp [hreq, hon, hcfg, ← h.2])
    · rename_i hoff
      split at h <;>
        (simp only [Run.done.injEq, Prod.mk.injEq] at h
         simp [hreq, hoff, ← h.2])

/-- A call that got a response was accepted by `http.NewRequest`. -/
theorem getApiResponseWithBody_ok_accepted (env : Env) (c : ApiCall) (resp : String)
    (reqs : List HttpRequest) (h : getApiResponseWithBody env c = .done (.ok resp, reqs)) :
    env.NewRequest c.method
      (env.clientProtocol ++ "://" ++ c.privateIpAddress ++ ":2379/v2/" ++ c.path) = none := by
  unfold getApiResponseWithBody at h
  simp only [] at h
  split at h
  · simp at h
  · rename_i hreq
    exact hreq

theorem getApiResponseWithBody_ok_tlsUsable (env : Env) (c : ApiCall) (resp : String)
    (reqs : List HttpRequest)
    (h : getApiResponseWithBody env c = .done (.ok resp, reqs)) : tlsUsable env = true := by
  unfold getApiResponseWithBody at h
  unfold tlsUsable
  simp only [] at h
  split at h
  · simp at h
  · split at h
    · split at h
      · simp at h
      · rename_i hon _ cfg hcfg
        simp [hon, hcfg]
    · rename_i hoff
      simp [hoff]

theorem sentBy_method (env : Env) (c : ApiCall) : ∀ q ∈ sentBy env c, q.method = c.method := by
  intro q hq
  unfold sentBy at hq
  split at hq
  · simp only [List.mem_singleton] at hq
    subst hq
    rfl
  · simp at hq

theorem buildClusterStep_no_address (env : Env) (localInstance : Instance) (st : Scan)
    (inst : Instance) (h : inst.PrivateDnsName = none) :
    buildClusterStep env localInstance st inst = .done st := by
  unfold buildClusterStep
  simp [h]

theorem buildClusterStep_local (env : Env) (localInstance : Instance) (st : Scan)
    (inst : Instance) (dns : String) (h : inst.PrivateDnsName = some dns)
    (hid : inst.InstanceId = localInstance.InstanceId) :
    buildClusterStep env localInstance st inst =
      .done { st with initialCluster := st.initialCluster ++
        [inst.InstanceId ++ "=" ++ env.peerProtocol ++ "://" ++ dns ++ ":2380"] } := by
  unfold buildClusterStep
  simp [h, hid]

theorem buildClusterStep_probe_fails (env : Env) (localInstance : Instance) (st : Scan)
    (inst : Instance) (dns : String) (h : inst.PrivateDnsName = some dns)
    (hid : inst.InstanceId ≠ localInstance.InstanceId)
    (hp : probeFails env inst dns = true) :
    buildClusterStep env localInstance st inst = .done (probed env st inst dns) := by
  unfold probeFails probe at hp
  unfold buildClusterStep probed
  simp only [h, hid, if_false]
  cases hr : getApiResponse env dns inst.InstanceId "stats/self" "GET" with
  | fatal msg => simp [hr] at hp
  | panic msg => simp [hr] at hp
  | done r =>
    obtain ⟨res, reqs⟩ := r
    have hs := getApiResponseWithBody_sent env _ res reqs hr
    subst hs
    cases res with
    | error err => rfl
    | ok body =>
      simp only [hr] at hp
      cases hd : env.decodeState body with
      | error err => simp only [hd]
      | ok nodeState => simp [hd] at hp

theorem buildClusterStep_empty_leader (env : Env) (localInstance : Instance) (st : Scan)
    (inst : Instance) (dns : String) (h : inst.PrivateDnsName = some dns)
    (hid : inst.InstanceId ≠ localInstance.InstanceId)
    (hp : probe env inst dns = .decoded "") :
    buildClusterStep env localInstance st inst = .done (probed env st inst dns) := by
  unfold probe at hp
  unfold buildClusterStep probed
  simp only [h, hid, if_false]
  cases hr : getApiResponse env dns inst.InstanceId "stats/self" "GET" with
  | fatal msg => simp [hr] at hp
  | panic msg => simp [hr] at hp
  | done r =>
    obtain ⟨res, reqs⟩ := r
    have hs := getApiResponseWithBody_sent env _ res reqs hr
    subst hs
    cases res with
    | error err => simp [hr] at hp
    | ok body =>
      simp only [hr] at hp
      cases hd : env.decodeState body with
      | error err => simp [hd] at hp
      | ok nodeState =>
        simp only [hd, ProbeOutcome.decoded.injEq] at hp
        simp only [hd, hp, if_true]

theorem buildClusterStep_leader_again (env : Env) (localInstance : Instance) (st : Scan)
    (inst : Instance) (dns leader : String) (h : inst.PrivateDnsName = some dns)
    (hid : inst.InstanceId ≠ localInstance.InstanceId)
    (hp : probe env inst dns = .decoded leader)
    (hst : st.initialClusterState = "existing") :
    buildClusterStep env localInstance st inst = .done (probed env st inst dns) := by
  unfold probe at hp
  unfold buildClusterStep probed
  simp only [h, hid, if_false]
  cases hr : getApiResponse env dns inst.InstanceId "stats/self" "GET" with
  | fatal msg => simp [hr] at hp
  | panic msg => simp [hr] at hp
  | done r =>
    obtain ⟨res, reqs⟩ := r
    have hs := getApiResponseWithBody_sent env _ res reqs hr
    subst hs
    cases res with
    | error err => simp [hr] at hp
    | ok body =>
      simp only [hr] at hp
      cases hd : env.decodeState body with
      | error err => simp [hd] at hp
      | ok nodeState =>
        simp only [hd, hst, ne_eq, not_true_eq_false, if_false, ite_self]

theorem buildClusterStep_leader_first (env : Env) (localInstance : Instance) (st : Scan)
    (inst : Instance) (dns leader localDns : String) (htls : tlsUsable env = true)
    (h : inst.PrivateDnsName = some dns)
    (hid : inst.InstanceId ≠ localInstance.InstanceId)
    (hp : probe env inst dns = .decoded leader) (hl : leader ≠ "")
    (hst : st.initialClusterState ≠ "existing")
    (hlocal : localInstance.PrivateDnsName = some localDns) :
    buildClusterStep env localInstance st inst =
      .done { initialClusterState := "existing"
              initialCluster := (probed env st inst dns).initialCluster
              calls := (probed env st inst dns).calls ++
                [joinCall env localInstance.InstanceId localDns dns inst.InstanceId]
              sent := (probed env st inst dns).sent ++
                sentBy env (joinCall env localInstance.InstanceId localDns dns inst.InstanceId) }
      := by
  unfold probe at hp
  unfold buildClusterStep probed
  simp only [h, hid, if_false]
  cases hr : getApiResponse env dns inst.InstanceId "stats/self" "GET" with
  | fatal msg => simp [hr] at hp
  | panic msg => simp [hr] at hp
  | done r =>
    obtain ⟨res, reqs⟩ := r
    have hs := getApiResponseWithBody_sent env _ res reqs hr
    subst hs
    cases res with
    | error err => simp [hr] at hp
    | ok body =>
      simp only [hr] at hp
      cases hd : env.decodeState body with
      | error err => simp [hd] at hp
      | ok nodeState =>
        simp only [hd, ProbeOutcome.decoded.injEq] at hp
        obtain ⟨r2, hr2⟩ := getApiResponseWithBody_returns env
          (joinCall env localInstance.InstanceId localDns dns inst.InstanceId) htls
        obtain ⟨res2, reqs2⟩ := r2
        have hs2 := getApiResponseWithBody_sent env _ res2 reqs2 hr2
        subst hs2
        simp only [hd, hp, hl, hst, hlocal, hr2, ne_eq, not_false_eq_true, if_true, if_false]

theorem probe_not_aborted (env : Env) (inst : Instance) (dns msg : String)
    (htls : tlsUsable env = true) : probe env inst dns ≠ .aborted msg := by
  intro hp
  unfold probe getApiResponse at hp
  obtain ⟨r, hr⟩ := getApiResponseWithBody_returns env
    (apiCall dns inst.InstanceId "stats/self" "GET") htls
  rw [hr] at hp
  obtain ⟨res, reqs⟩ := r
  cases res with
  | error err => simp at hp
  | ok body =>
    simp only at hp
    split at hp <;> simp at hp

/-- A probe that decoded was accepted by `http.NewRequest`. -/
theorem probe_decoded_accepted (env : Env) (inst : Instance) (dns leader : String)
    (hp : probe env inst dns = .decoded leader) :
    env.NewRequest "GET" (env.clientProtocol ++ "://" ++ dns ++ ":2379/v2/" ++ "stats/self") =
      none := by
  unfold probe at hp
  cases hr : getApiResponse env dns inst.InstanceId "stats/self" "GET" with
  | fatal msg => simp [hr] at hp
  | panic msg => simp [hr] at hp
  | done r =>
    obtain ⟨res, reqs⟩ := r
    cases res with
    | error err => simp [hr] at hp
    | ok body => exact getApiResponseWithBody_ok_accepted env _ body reqs hr

theorem expectedPeers_cons (peerProtocol : String) (inst : Instance) (rest : List Instance) :
    expectedPeers peerProtocol (inst :: rest) =
      expectedPeers peerProtocol [inst] ++ expectedPeers peerProtocol rest := by
  unfold expectedPeers
  cases h : inst.PrivateDnsName <;> simp [List.filterMap_cons, h]

/-- A step that finds no new leader keeps the state, appends the entry of
the instance (if it has an address), and makes at most a probe of a peer
other than the local instance. -/
theorem buildClusterStep_quiet (env : Env) (localInstance : Instance) (st : Scan)
    (inst : Instance) (htls : tlsUsable env = true)
    (h : reportsLeader env localInstance inst = false ∨ st.initialClusterState = "existing") :
    ∃ extra reqs, buildClusterStep env localInstance st inst =
        .done ⟨st.initialClusterState,
          st.initialCluster ++ expectedPeers env.peerProtocol [inst], st.calls ++ extra,
          st.sent ++ reqs⟩ ∧
      (∀ c ∈ extra, c.method = "GET" ∧ c.instanceId ≠ localInstance.InstanceId) ∧
      ∀ q ∈ reqs, q.method = "GET" := by
  cases hdns : inst.PrivateDnsName with
  | none =>
    refine ⟨[], [], ?_, by simp, by simp⟩
    rw [buildClusterStep_no_address env localInstance st inst hdns]
    simp [expectedPeers, hdns]
  | some dns =>
    by_cases hid : inst.InstanceId = localInstance.InstanceId
    · refine ⟨[], [], ?_, by simp, by simp⟩
      rw [buildClusterStep_local env localInstance st inst dns hdns hid]
      simp [expectedPeers, hdns]
    · have hexp : expectedPeers env.peerProtocol [inst] =
          [inst.InstanceId ++ "=" ++ env.peerProtocol ++ "://" ++ dns ++ ":2380"] := by
        simp [expectedPeers, hdns]
      refine ⟨[apiCall dns inst.InstanceId "stats/self" "GET"],
        sentBy env (apiCall dns inst.InstanceId "stats/self" "GET"), ?_, ?_, ?_⟩
      · rw [hexp]
        cases hp : probe env inst dns with
        | unreachable err =>
          exact buildClusterStep_probe_fails env localInstance st inst dns hdns hid
            (by simp [probeFails, hp])
        | undecodable err =>
          exact buildClusterStep_probe_fails env localInstance st inst dns hdns hid
            (by simp [probeFails, hp])
        | decoded leader =>
          rcases h with h | h
          · have hl : leader = "" := by
              unfold reportsLeader at h
              simpa [hdns, hid, hp] using h
            subst hl
            exact buildClusterStep_empty_leader env localInstance st inst dns hdns hid hp
          · exact buildClusterStep_leader_again env localInstance st inst dns leader hdns hid hp h
        | aborted msg => exact absurd hp (probe_not_aborted env inst dns msg htls)
      · intro c hc
        simp only [List.mem_singleton] at hc
        subst hc
        exact ⟨rfl, hid⟩
      · exact sentBy_method env _

theorem buildClusterLoop_quiet (env : Env) (localInstance : Instance)
    (htls : tlsUsable env = true) :
    ∀ (instances : List Instance) (st : Scan),
      ((∀ i ∈ instances, reportsLeader env localInstance i = false) ∨
        st.initialClusterState = "existing") →
      ∃ extra reqs, buildClusterLoop env localInstance st instances =
          .done ⟨st.initialClusterState,
            st.initialCluster ++ expectedPeers env.peerProtocol instances, st.calls ++ extra,
            st.sent ++ reqs⟩ ∧
        (∀ c ∈ extra, c.method = "GET" ∧ c.instanceId ≠ localInstance.InstanceId) ∧
        ∀ q ∈ reqs, q.method = "GET" := by
  intro instances
  induction instances with
  | nil =>
    intro st _
    exact ⟨[], [], by simp [buildClusterLoop, expectedPeers], by simp, by simp⟩
  | cons inst rest ih =>
    intro st h
    have hstep : reportsLeader env localInstance inst = false ∨
        st.initialClusterState = "existing" := by
      rcases h with h | h
      · exact Or.inl (h inst (List.mem_cons_self _ _))
      · exact Or.inr h
    obtain ⟨e1, q1, hs, he1, hq1⟩ := buildClusterStep_quiet env localInstance st inst htls hstep
    have hrest : (∀ i ∈ rest, reportsLeader env localInstance i = false) ∨
        st.initialClusterState = "existing" := by
      rcases h with h | h
      · exact Or.inl (fun i hi => h i (List.mem_cons_of_mem _ hi))
      · exact Or.inr h
    obtain ⟨e2, q2, hl, he2, hq2⟩ := ih ⟨st.initialClusterState,
      st.initialCluster ++ expectedPeers env.peerProtocol [inst], st.calls ++ e1,
      st.sent ++ q1⟩ hrest
    refine ⟨e1 ++ e2, q1 ++ q2, ?_, ?_, ?_⟩
    · simp only [buildClusterLoop, hs, hl]
      rw [expectedPeers_cons env.peerProtocol inst rest]
      simp [List.append_assoc]
    · intro c hc
      rcases List.mem_append.mp hc with hc | hc
      · exact he1 c hc
      · exact he2 c hc
    · intro q hq
      rcases List.mem_append.mp hq with hq | hq
      · exact hq1 q hq
      · exact hq2 q hq

theorem buildClusterStep_no_leader_seen (env : Env) (localInstance : Instance) (st : Scan)
    (inst : Instance) (h : noLeaderSeen env localInstance inst = true) :
    ∃ extra reqs, buildClusterStep env localInstance st inst =
        .done ⟨st.initialClusterState,
          st.initialCluster ++ expectedPeers env.peerProtocol [inst], st.calls ++ extra,
          st.sent ++ reqs⟩ ∧
      (∀ c ∈ extra, c.method = "GET" ∧ c.instanceId ≠ localInstance.InstanceId) ∧
      ∀ q ∈ reqs, q.method = "GET" := by
  cases hdns : inst.PrivateDnsName with
  | none =>
    refine ⟨[], [], ?_, by simp, by simp⟩
    rw [buildClusterStep_no_address env localInstance st inst hdns]
    simp [expectedPeers, hdns]
  | some dns =>
    by_cases hid : inst.InstanceId = localInstance.InstanceId
    · refine ⟨[], [], ?_, by simp, by simp⟩
      rw [buildClusterStep_local env localInstance st inst dns hdns hid]
      simp [expectedPeers, hdns]
    · have hexp : expectedPeers env.peerProtocol [inst] =
          [inst.InstanceId ++ "=" ++ env.peerProtocol ++ "://" ++ dns ++ ":2380"] := by
        simp [expectedPeers, hdns]
      unfold noLeaderSeen at h
      simp only [hdns, Bool.or_eq_true, beq_iff_eq, hid, false_or] at h
      refine ⟨[apiCall dns inst.InstanceId "stats/self" "GET"],
        sentBy env (apiCall dns inst.InstanceId "stats/self" "GET"), ?_, ?_, ?_⟩
      · rw [hexp]
        cases hp : probe env inst dns with
        | unreachable err =>
          exact buildClusterStep_probe_fails env localInstance st inst dns hdns hid
            (by simp [probeFails, hp])
        | undecodable err =>
          exact buildClusterStep_probe_fails env localInstance st inst dns hdns hid
            (by simp [probeFails, hp])
        | decoded leader =>
          have hl : leader = "" := by simpa [hp] using h
          subst hl
          exact buildClusterStep_empty_leader env localInstance st inst dns hdns hid hp
        | aborted msg => simp [hp] at h
      · intro c hc
        simp only [List.mem_singleton] at hc
        subst hc
        exact ⟨rfl, hid⟩
      · exact sentBy_method env _

theorem buildClusterLoop_no_leader_seen (env : Env) (localInstance : Instance) :
    ∀ (instances : List Instance) (st : Scan),
      (∀ i ∈ instances, noLeaderSeen env localInstance i = true) →
      ∃ extra reqs, buildClusterLoop env localInstance st instances =
          .done ⟨st.initialClusterState,
            st.initialCluster ++ expectedPeers env.peerProtocol instances, st.calls ++ extra,
            st.sent ++ reqs⟩ ∧
        (∀ c ∈ extra, c.method = "GET" ∧ c.instanceId ≠ localInstance.InstanceId) ∧
        ∀ q ∈ reqs, q.method = "GET" := by
  intro instances
  induction instances with
  | nil =>
    intro st _
    exact ⟨[], [], by simp [buildClusterLoop, expectedPeers], by simp, by simp⟩
  | cons inst rest ih =>
    intro st h
    obtain ⟨e1, q1, hs, he1, hq1⟩ := buildClusterStep_no_leader_seen env localInstance st inst
      (h inst (List.mem_cons_self _ _))
    obtain ⟨e2, q2, hl, he2, hq2⟩ := ih ⟨st.initialClusterState,
      st.initialCluster ++ expectedPeers env.peerProtocol [inst], st.calls ++ e1,
      st.sent ++ q1⟩ (fun i hi => h i (List.mem_cons_of_mem _ hi))
    refine ⟨e1 ++ e2, q1 ++ q2, ?_, ?_, ?_⟩
    · simp only [buildClusterLoop, hs, hl]
      rw [expectedPeers_cons env.peerProtocol inst rest]
      simp [List.append_assoc]
    · intro c hc
      rcases List.mem_append.mp hc with hc | hc
      · exact he1 c hc
      · exact he2 c hc
    · intro q hq
      rcases List.mem_append.mp hq with hq | hq
      · exact hq1 q hq
      · exact hq2 q hq

theorem buildClusterStep_peers (env : Env) (localInstance : Instance) (st st1 : Scan)
    (inst : Instance) (h : buildClusterStep env localInstance st inst = .done st1) :
    st1.initialCluster = st.initialCluster ++ expectedPeers env.peerProtocol [inst] := by
  unfold buildClusterStep at h
  cases hdns : inst.PrivateDnsName with
  | none =>
    simp only [hdns, Run.done.injEq] at h
    subst h
    simp [expectedPeers, hdns]
  | some dns =>
    have hexp : expectedPeers env.peerProtocol [inst] =
        [inst.InstanceId ++ "=" ++ env.peerProtocol ++ "://" ++ dns ++ ":2380"] := by
      simp [expectedPeers, hdns]
    rw [hexp]
    simp only [hdns] at h
    repeat' split at h
    all_goals first
      | (cases h; rfl)
      | cases h

theorem buildClusterLoop_peers (env : Env) (localInstance : Instance) :
    ∀ (instances : List Instance) (st st1 : Scan),
      buildClusterLoop env localInstance st instances = .done st1 →
      st1.initialCluster = st.initialCluster ++ expectedPeers env.peerProtocol instances := by
  intro instances
  induction instances with
  | nil =>
    intro st st1 h
    simp only [buildClusterLoop, Run.done.injEq] at h
    subst h
    simp [expectedPeers]
  | cons inst rest ih =>
    intro st st1 h
    simp only [buildClusterLoop] at h
    cases hs : buildClusterStep env localInstance st inst with
    | fatal msg => simp [hs] at h
    | panic msg => simp [hs] at h
    | done st2 =>
      simp only [hs] at h
      rw [ih st2 st1 h, buildClusterStep_peers env localInstance st st2 inst hs,
        expectedPeers_cons env.peerProtocol inst rest, List.append_assoc]

theorem buildClusterLoop_first_leader (env : Env) (localInstance : Instance) (localDns : String)
    (htls : tlsUsable env = true) (hlocal : localInstance.PrivateDnsName = some localDns) :
    ∀ (instances : List Instance) (st : Scan) (p : Instance),
      st.initialClusterState ≠ "existing" →
      instances.find? (reportsLeader env localInstance) = some p →
      ∃ dns before after sentBefore sentAfter, p.PrivateDnsName = some dns ∧
        buildClusterLoop env localInstance st instances =
          .done ⟨"existing", st.initialCluster ++ expectedPeers env.peerProtocol instances,
            st.calls ++ before ++
              [joinCall env localInstance.InstanceId localDns dns p.InstanceId] ++ after,
            st.sent ++ sentBefore ++
              sentBy env (joinCall env localInstance.InstanceId localDns dns p.InstanceId) ++
              sentAfter⟩ ∧
        (∀ c ∈ before ++ after,
          c.method = "GET" ∧ c.instanceId ≠ localInstance.InstanceId) ∧
        ∀ q ∈ sentBefore ++ sentAfter, q.method = "GET" := by
  intro instances
  induction instances with
  | nil =>
    intro st p _ hf
    simp at hf
  | cons inst rest ih =>
    intro st p hst hf
    cases hrep : reportsLeader env localInstance inst with
    | true =>
      have hp : inst = p := by simpa [List.find?_cons, hrep] using hf
      subst hp
      have hrep2 := hrep
      unfold reportsLeader at hrep2
      cases hdns : inst.PrivateDnsName with
      | none => simp [hdns] at hrep2
      | some dns =>
        simp only [hdns, Bool.and_eq_true, bne_iff_ne, ne_eq] at hrep2
        obtain ⟨hid, hlead⟩ := hrep2
        cases hpr : probe env inst dns with
        | unreachable err => simp [hpr] at hlead
        | undecodable err => simp [hpr] at hlead
        | aborted msg => simp [hpr] at hlead
        | decoded leader =>
          have hl : leader ≠ "" := by simpa [hpr] using hlead
          have hs := buildClusterStep_leader_first env localInstance st inst dns leader localDns
            htls hdns hid hpr hl hst hlocal
          obtain ⟨e2, q2, hloop, he2, hq2⟩ := buildClusterLoop_quiet env localInstance htls rest
            { initialClusterState := "existing"
              initialCluster := (probed env st inst dns).initialCluster
              calls := (probed env st inst dns).calls ++
                [joinCall env localInstance.InstanceId localDns dns inst.InstanceId]
              sent := (probed env st inst dns).sent ++
                sentBy env (joinCall env localInstance.InstanceId localDns dns inst.InstanceId) }
            (Or.inr rfl)
          refine ⟨dns, [apiCall dns inst.InstanceId "stats/self" "GET"], e2,
            sentBy env (apiCall dns inst.InstanceId "stats/self" "GET"), q2, rfl, ?_, ?_, ?_⟩
          · simp only [buildClusterLoop, hs, hloop]
            rw [expectedPeers_cons env.peerProtocol inst rest]
            simp [probed, expectedPeers, hdns, List.append_assoc]
          · intro c hc
            rcases List.mem_append.mp hc with hc | hc
            · simp only [List.mem_singleton] at hc
              subst hc
              exact ⟨rfl, hid⟩
            · exact he2 c hc
          · intro q hq
            rcases List.mem_append.mp hq with hq | hq
            · exact sentBy_method env _ q hq
            · exact hq2 q hq
    | false =>
      have hf2 : rest.find? (reportsLeader env localInstance) = some p := by
        simpa [List.find?_cons, hrep] using hf
      obtain ⟨e1, q1, hs, he1, hq1⟩ :=
        buildClusterStep_quiet env localInstance st inst htls (Or.inl hrep)
      obtain ⟨dns, before, after, sb, sa, hdns, hloop, hcalls, hsent⟩ :=
        ih ⟨st.initialClusterState,
          st.initialCluster ++ expectedPeers env.peerProtocol [inst], st.calls ++ e1,
          st.sent ++ q1⟩ p hst hf2
      refine ⟨dns, e1 ++ before, after, q1 ++ sb, sa, hdns, ?_, ?_, ?_⟩
      · simp only [buildClusterLoop, hs, hloop]
        rw [expectedPeers_cons env.peerProtocol inst rest]
        simp [List.append_assoc]
      · intro c hc
        simp only [List.append_assoc, List.mem_append] at hc
        rcases hc with hc | hc | hc
        · exact he1 c hc
        · exact hcalls c (List.mem_append.mpr (Or.inl hc))
        · exact hcalls c (List.mem_append.mpr (Or.inr hc))
      · intro q hq
        simp only [List.append_assoc, List.mem_append] at hq
        rcases hq with hq | hq | hq
        · exact hq1 q hq
        · exact hsent q (List.mem_append.mpr (Or.inl hq))
        · exact hsent q (List.mem_append.mpr (Or.inr hq))

theorem reportsLeader_false_of_find_none (env : Env) (localInstance : Instance)
    (instances : List Instance)
    (hf : instances.find? (reportsLeader env localInstance) = none) :
    ∀ i ∈ instances, reportsLeader env localInstance i = false := by
  rw [List.find?_eq_none] at hf
  intro i hi
  simpa using hf i hi

theorem buildClusterLoop_returns (env : Env) (localInstance : Instance) (localDns : String)
    (htls : tlsUsable env = true) (hlocal : localInstance.PrivateDnsName = some localDns)
    (instances : List Instance) :
    ∃ st, buildClusterLoop env localInstance ⟨"new", [], [], []⟩ instances = .done st := by
  cases hf : instances.find? (reportsLeader env localInstance) with
  | none =>
    obtain ⟨extra, reqs, hloop, _⟩ := buildClusterLoop_quiet env localInstance htls instances
      ⟨"new", [], [], []⟩
      (Or.inl (reportsLeader_false_of_find_none env localInstance instances hf))
    exact ⟨_, hloop⟩
  | some p =>
    obtain ⟨dns, before, after, sb, sa, _, hloop, _⟩ :=
      buildClusterLoop_first_leader env localInstance localDns htls hlocal instances
        ⟨"new", [], [], []⟩ p (by decide) hf
    exact ⟨_, hloop⟩

theorem buildCluster_peers (env : Env) (localInstance : Instance) (instances : List Instance)
    (asg : Option String) (r : BuildResult)
    (h : buildCluster env ⟨.ok localInstance, .ok instances, asg⟩ = .done r) :
    r.initialCluster = expectedPeers env.peerProtocol instances := by
  simp only [buildCluster] at h
  cases hloop : buildClusterLoop env localInstance ⟨"new", [], [], []⟩ instances with
  | fatal msg => simp [hloop] at h
  | panic msg => simp [hloop] at h
  | done st =>
    simp only [hloop, Run.done.injEq] at h
    subst h
    simpa using buildClusterLoop_peers env localInstance instances ⟨"new", [], [], []⟩ st hloop

/-- A peer whose probe decoded with a leader was reached: the TLS material is
usable and `http.NewRequest` accepted the URL of the probe. -/
theorem reportsLeader_reached (env : Env) (localInstance inst : Instance) (dns : String)
    (hdns : inst.PrivateDnsName = some dns)
    (h : reportsLeader env localInstance inst = true) :
    tlsUsable env = true ∧ inst.InstanceId ≠ localInstance.InstanceId ∧
      env.NewRequest "GET"
        (env.clientProtocol ++ "://" ++ dns ++ ":2379/v2/" ++ "stats/self") = none := by
  unfold reportsLeader at h
  simp only [hdns, Bool.and_eq_true, bne_iff_ne, ne_eq] at h
  obtain ⟨hid, hp⟩ := h
  cases hpr : probe env inst dns with
  | unreachable err => simp [hpr] at hp
  | undecodable err => simp [hpr] at hp
  | aborted msg => simp [hpr] at hp
  | decoded leader =>
    refine ⟨?_, hid, probe_decoded_accepted env inst dns leader hpr⟩
    unfold probe at hpr
    cases hr : getApiResponse env dns inst.InstanceId "stats/self" "GET" with
    | fatal msg => simp [hr] at hpr
    | panic msg => simp [hr] at hpr
    | done r =>
      obtain ⟨res, reqs⟩ := r
      cases res with
      | error err => simp [hr] at hpr
      | ok body => exact getApiResponseWithBody_ok_tlsUsable env _ body reqs hr

theorem reportsLeader_has_address (env : Env) (localInstance inst : Instance)
    (h : reportsLeader env localInstance inst = true) :
    ∃ dns, inst.PrivateDnsName = some dns := by
  unfold reportsLeader at h
  cases hdns : inst.PrivateDnsName with
  | none => simp [hdns] at h
  | some dns => exact ⟨dns, rfl⟩

theorem url_suffix (a b c : String) : a ++ b ++ c = a ++ (b ++ c) :=
  String.append_assoc a b c

theorem foldl_memberID (EC2InstanceID : String) :
    ∀ (members : List etcdMember) (acc : String),
      members.foldl
        (fun memberID member => if member.Name = EC2InstanceID then member.ID else memberID) acc =
      (((members.filter (fun x => x.Name = EC2InstanceID)).getLast?).map (·.ID)).getD acc := by
  intro members
  induction members with
  | nil => intro acc; rfl
  | cons x rest ih =>
    intro acc
    rw [List.foldl_cons, ih]
    by_cases hx : x.Name = EC2InstanceID
    · simp only [hx, if_true, List.filter_cons, decide_True, List.getLast?_cons]
      cases (rest.filter (fun x => x.Name = EC2InstanceID)).getLast? <;> rfl
    · simp [hx, List.filter_cons]

theorem findMemberID_last (members : List etcdMember) (EC2InstanceID : String)
    (member : etcdMember)
    (h : (members.filter (fun x => x.Name = EC2InstanceID)).getLast? = some member) :
    findMemberID members EC2InstanceID = member.ID := by
  unfold findMemberID
  rw [foldl_memberID, h]
  rfl

theorem findMemberID_none (members : List etcdMember) (EC2InstanceID : String)
    (h : ∀ x ∈ members, x.Name ≠ EC2InstanceID) :
    findMemberID members EC2InstanceID = "" := by
  unfold findMemberID
  rw [foldl_memberID]
  have : members.filter (fun x => x.Name = EC2InstanceID) = [] := by
    rw [List.filter_eq_nil_iff]
    intro x hx
    simpa using h x hx
  rw [this]
  rfl

theorem watchLifecycleEvents_cons (st : LoopState) (x : LoopInput) (rest : List LoopInput) :
    watchLifecycleEvents st (x :: rest) =
      match watchLifecycleEventsStep st x with
      | none => none
      | some (st1, eff) =>
        match watchLifecycleEvents st1 rest with
        | none => none
        | some (st2, eff2) => some (st2, eff ++ eff2) := by
  rw [watchLifecycleEvents]

theorem watchLifecycleEvents_append :
    ∀ (xs ys : List LoopInput) (st : LoopState),
      watchLifecycleEvents st (xs ++ ys) =
        match watchLifecycleEvents st xs with
        | none => none
        | some (st1, eff) =>
          match watchLifecycleEvents st1 ys with
          | none => none
          | some (st2, eff2) => some (st2, eff ++ eff2) := by
  intro xs
  induction xs with
  | nil =>
    intro ys st
    rw [List.nil_append]
    simp only [watchLifecycleEvents, List.nil_append]
    cases watchLifecycleEvents st ys with
    | none => rfl
    | some r => rfl
  | cons x rest ih =>
    intro ys st
    rw [List.cons_append, watchLifecycleEvents_cons, watchLifecycleEvents_cons]
    cases hstep : watchLifecycleEventsStep st x with
    | none => rfl
    | some r =>
      obtain ⟨st1, eff⟩ := r
      simp only
      rw [ih ys st1]
      cases hrest : watchLifecycleEvents st1 rest with
      | none => rfl
      | some r1 =>
        obtain ⟨st2, eff2⟩ := r1
        simp only
        cases hys : watchLifecycleEvents st2 ys with
        | none => rfl
        | some r2 => simp [List.append_assoc]

theorem watchLifecycleEvents_backoff (queueUrls : List String) :
    watchLifecycleEvents .awaitingSource (queueUrls.map hookNotFound) =
      some (.awaitingSource, List.replicate queueUrls.length (.sleep 10)) := by
  induction queueUrls with
  | nil => rfl
  | cons q rest ih =>
    simp only [List.map_cons, watchLifecycleEvents, hookNotFound, watchLifecycleEventsStep,
      List.length_cons, List.replicate_succ]
    simp only [hookNotFound] at ih
    rw [ih]
    rfl

theorem stats_url (a : String) :
    a ++ ":2379/v2/" ++ "stats/self" = a ++ ":2379/v2/stats/self" := by
  rw [String.append_assoc]
  rfl

theorem members_url (a : String) :
    a ++ ":2379/v2/" ++ "members" = a ++ ":2379/v2/members" := by
  rw [String.append_assoc]
  rfl

theorem member_url (a id : String) :
    a ++ ":2379/v2/" ++ ("members/" ++ id) = a ++ ":2379/v2/members/" ++ id := by
  rw [String.append_assoc, String.append_assoc, ← String.append_assoc ":2379/v2/" "members/" id]
  rfl

/-! ## Bootstrap resolver -/

/-- Claim C1. Every probe has one of the outcomes unreachable, undecodable
or decoded with a leader string. If no instance other than the local one,
with an address, has a probe that decodes with a non-empty leader,
`buildCluster` returns state `new`, no error, and as initial peers exactly
the entries `<instanceId>=<peerProtocol>://<address>:2380` of the instances
that have an address, one each, in enumeration order. -/
theorem buildCluster_new_without_leader (env : Env) (localInstance : Instance)
    (instances : List Instance) (asg : Option String)
    (h : ∀ i ∈ instances, noLeaderSeen env localInstance i = true) :
    ∃ r, buildCluster env ⟨.ok localInstance, .ok instances, asg⟩ = .done r ∧
      r.initialClusterState = "new" ∧
      r.initialCluster = instances.filterMap (fun i =>
        i.PrivateDnsName.map fun dns =>
          i.InstanceId ++ "=" ++ env.peerProtocol ++ "://" ++ dns ++ ":2380") ∧
      r.err = none := by
  obtain ⟨extra, reqs, hloop, _⟩ :=
    buildClusterLoop_no_leader_seen env localInstance instances ⟨"new", [], [], []⟩ h
  refine ⟨⟨"new", expectedPeers env.peerProtocol instances, none, extra, reqs⟩,
    ?_, rfl, rfl, rfl⟩
  simp [buildCluster, hloop]

theorem buildCluster_new_without_leader_witness :
    ∃ r, buildCluster demoEnv ⟨.ok demoLocal, .ok quietGroup, none⟩ = .done r ∧
      r.initialClusterState = "new" ∧
      r.initialCluster =
        ["i-a=http://a:2380", "i-d=http://d:2380", "i-e=http://e:2380", "i-g=http://g:2380"] ∧
      r.err = none :=
  buildCluster_new_without_leader demoEnv demoLocal quietGroup none (by decide)

/-- Claim C2. When the local instance has an address and some instance other
than the local one, with an address, has a probe that decodes with a
non-empty leader, `buildCluster` returns state `existing`, and the `POST`
requests sent during the pass are exactly one: to the members endpoint
`<clientProtocol>://<address>:2379/v2/members` of the first such instance in
enumeration order, with as body the member named after the local instance
with the local peer URL. The admin client is invoked for a `POST` exactly
once, for that peer, and no call at all targets the local instance.
The premise `hurl` is a fact of the Go library: `http.NewRequest` fails only
when the URL does not parse, and the members URL of an address differs from
its `stats/self` URL, which the probe of that peer got accepted, in the
plain path only. -/
theorem buildCluster_existing_single_join (env : Env) (localInstance : Instance)
    (localDns : String) (instances : List Instance) (asg : Option String)
    (hlocal : localInstance.PrivateDnsName = some localDns)
    (hurl : ∀ addr : String,
      env.NewRequest "GET" (env.clientProtocol ++ "://" ++ addr ++ ":2379/v2/stats/self") =
        none →
      env.NewRequest "POST" (env.clientProtocol ++ "://" ++ addr ++ ":2379/v2/members") =
        none)
    (h : ∃ i ∈ instances, reportsLeader env localInstance i = true) :
    ∃ p dns r, instances.find? (reportsLeader env localInstance) = some p ∧
      p.PrivateDnsName = some dns ∧
      buildCluster env ⟨.ok localInstance, .ok instances, asg⟩ = .done r ∧
      r.initialClusterState = "existing" ∧
      r.sent.filter (fun q => q.method = "POST") =
        [{ method := "POST"
           url := env.clientProtocol ++ "://" ++ dns ++ ":2379/v2/members"
           contentType := some "application/json"
           body := some { Name := localInstance.InstanceId,
                          PeerURLs := [env.peerProtocol ++ "://" ++ localDns ++ ":2380"] }
           tls := clientTls env }] ∧
      r.calls.filter (fun c => c.method = "POST") =
        [{ privateIpAddress := dns
           instanceId := p.InstanceId
           path := "members"
           method := "POST"
           bodyType := "application/json"
           body := some { Name := localInstance.InstanceId,
                          PeerURLs := [env.peerProtocol ++ "://" ++ localDns ++ ":2380"] } }] ∧
      ∀ c ∈ r.calls, c.instanceId ≠ localInstance.InstanceId := by
  obtain ⟨i, hi, hrep⟩ := h
  obtain ⟨idns, hidns⟩ := reportsLeader_has_address env localInstance i hrep
  have htls := (reportsLeader_reached env localInstance i idns hidns hrep).1
  cases hf : instances.find? (reportsLeader env localInstance) with
  | none =>
    rw [List.find?_eq_none] at hf
    exact absurd hrep (hf i hi)
  | some p =>
    obtain ⟨dns, before, after, sb, sa, hdns, hloop, hcalls, hsent⟩ :=
      buildClusterLoop_first_leader env localInstance localDns htls hlocal instances
        ⟨"new", [], [], []⟩ p (by decide) hf
    obtain ⟨_, hpid, hget⟩ :=
      reportsLeader_reached env localInstance p dns hdns (List.find?_some hf)
    have hpost : env.NewRequest "POST"
        (env.clientProtocol ++ "://" ++ dns ++ ":2379/v2/" ++ "members") = none := by
      rw [members_url]
      rw [stats_url] at hget
      exact hurl dns hget
    have hjoin : sentBy env (joinCall env localInstance.InstanceId localDns dns p.InstanceId) =
        [wireRequest env (joinCall env localInstance.InstanceId localDns dns p.InstanceId)] := by
      unfold sentBy
      simp only [joinCall, hpost, if_true]
    have hbefore : before.filter (fun c => c.method = "POST") = [] := by
      rw [List.filter_eq_nil_iff]
      intro c hc
      have := (hcalls c (List.mem_append.mpr (Or.inl hc))).1
      simp [this]
    have hafter : after.filter (fun c => c.method = "POST") = [] := by
      rw [List.filter_eq_nil_iff]
      intro c hc
      have := (hcalls c (List.mem_append.mpr (Or.inr hc))).1
      simp [this]
    have hsb : sb.filter (fun q => q.method = "POST") = [] := by
      rw [List.filter_eq_nil_iff]
      intro q hq
      have := hsent q (List.mem_append.mpr (Or.inl hq))
      simp [this]
    have hsa : sa.filter (fun q => q.method = "POST") = [] := by
      rw [List.filter_eq_nil_iff]
      intro q hq
      have := hsent q (List.mem_append.mpr (Or.inr hq))
      simp [this]
    refine ⟨p, dns, ⟨"existing", expectedPeers env.peerProtocol instances, none,
      before ++ [joinCall env localInstance.InstanceId localDns dns p.InstanceId] ++ after,
      sb ++ [wireRequest env (joinCall env localInstance.InstanceId localDns dns p.InstanceId)]
        ++ sa⟩,
      rfl, hdns, ?_, rfl, ?_, ?_, ?_⟩
    · simp [buildCluster, hloop, hjoin]
    · simp [List.filter_append, hsb, hsa, wireRequest, joinCall, members_url]
    · simp [List.filter_append, hbefore, hafter, joinCall]
    · intro c hc
      simp only [List.append_assoc, List.mem_append, List.mem_singleton] at hc
      rcases hc with hc | hc | hc
      · exact (hcalls c (List.mem_append.mpr (Or.inl hc))).2
      · subst hc
        exact hpid
      · exact (hcalls c (List.mem_append.mpr (Or.inr hc))).2

theorem buildCluster_existing_single_join_witness :
    (∃ i ∈ liveGroup, reportsLeader demoEnv demoLocal i = true) ∧
    buildCluster demoEnv ⟨.ok demoLocal, .ok liveGroup, none⟩ =
      .done ⟨"existing",
        ["i-a=http://a:2380", "i-d=http://d:2380", "i-b=http://b:2380", "i-c=http://c:2380"],
        none,
        [⟨"d", "i-d", "stats/self", "GET", "", none⟩,
         ⟨"b", "i-b", "stats/self", "GET", "", none⟩,
         ⟨"b", "i-b", "members", "POST", "application/json",
           some { Name := "i-a", PeerURLs := ["http://a:2380"] }⟩,
         ⟨"c", "i-c", "stats/self", "GET", "", none⟩],
        [⟨"GET", "http://d:2379/v2/stats/self", none, none, none⟩,
         ⟨"GET", "http://b:2379/v2/stats/self", none, none, none⟩,
         ⟨"POST", "http://b:2379/v2/members", some "application/json",
           some { Name := "i-a", PeerURLs := ["http://a:2380"] }, none⟩,
         ⟨"GET", "http://c:2379/v2/stats/self", none, none, none⟩]⟩ ∧
    ∃ p dns r, liveGroup.find? (reportsLeader demoEnv demoLocal) = some p ∧
      p.PrivateDnsName = some dns ∧
      buildCluster demoEnv ⟨.ok demoLocal, .ok liveGroup, none⟩ = .done r ∧
      r.initialClusterState = "existing" ∧
      r.sent.filter (fun q => q.method = "POST") =
        [{ method := "POST"
           url := "http" ++ "://" ++ dns ++ ":2379/v2/members"
           contentType := some "application/json"
           body := some { Name := "i-a", PeerURLs := ["http://a:2380"] }
           tls := none }] ∧
      r.calls.filter (fun c => c.method = "POST") =
        [{ privateIpAddress := dns
           instanceId := p.InstanceId
           path := "members"
           method := "POST"
           bodyType := "application/json"
           body := some { Name := "i-a", PeerURLs := ["http://a:2380"] } }] ∧
      ∀ c ∈ r.calls, c.instanceId ≠ "i-a" :=
  ⟨⟨⟨"i-c", some "c"⟩, by decide, by decide⟩, by decide,
   buildCluster_existing_single_join demoEnv demoLocal "a" liveGroup none rfl
     (fun _ _ => rfl) ⟨⟨"i-c", some "c"⟩, by decide, by decide⟩⟩

/-- Claim C7. Processing an instance other than the local one that has an
address and whose probe fails (request error or undecodable body) leaves the
cluster state as it was, makes no call besides the probe itself and sends no
request besides the `GET` of the probe (so no pre-join `POST`), and appends
the entry of that instance to the initial peers.  Consequently the initial
peers `buildCluster` returns are the entries of the instances with an address
whatever the probes answer: any two worlds with the same peer protocol return
the same initial peers for the same instance list, and `buildCluster` does
return whenever the TLS material is usable and the local instance has an
address. -/
theorem buildClusterStep_probe_failure_frame (env : Env) (localInstance : Instance)
    (st : Scan) (inst : Instance) (dns : String)
    (hdns : inst.PrivateDnsName = some dns)
    (hid : inst.InstanceId ≠ localInstance.InstanceId)
    (hfail : probeFails env inst dns = true) :
    buildClusterStep env localInstance st inst =
        .done { initialClusterState := st.initialClusterState
                initialCluster := st.initialCluster ++
                  [inst.InstanceId ++ "=" ++ env.peerProtocol ++ "://" ++ dns ++ ":2380"]
                calls := st.calls ++ [⟨dns, inst.InstanceId, "stats/self", "GET", "", none⟩]
                sent := st.sent ++
                  (if env.NewRequest "GET"
                      (env.clientProtocol ++ "://" ++ dns ++ ":2379/v2/stats/self") = none then
                    [⟨"GET", env.clientProtocol ++ "://" ++ dns ++ ":2379/v2/stats/self",
                      none, none, clientTls env⟩]
                  else []) } ∧
      (∀ (env2 : Env) (instances : List Instance) (asg : Option String) (r r2 : BuildResult),
        env2.peerProtocol = env.peerProtocol →
        buildCluster env ⟨.ok localInstance, .ok instances, asg⟩ = .done r →
        buildCluster env2 ⟨.ok localInstance, .ok instances, asg⟩ = .done r2 →
        r2.initialCluster = r.initialCluster ∧
          r.initialCluster = instances.filterMap (fun i =>
            i.PrivateDnsName.map fun d =>
              i.InstanceId ++ "=" ++ env.peerProtocol ++ "://" ++ d ++ ":2380")) ∧
      (∀ (instances : List Instance) (asg : Option String) (localDns : String),
        tlsUsable env = true → localInstance.PrivateDnsName = some localDns →
        ∃ r, buildCluster env ⟨.ok localInstance, .ok instances, asg⟩ = .done r) := by
  refine ⟨?_, ?_, ?_⟩
  · rw [buildClusterStep_probe_fails env localInstance st inst dns hdns hid hfail]
    simp [probed, sentBy, wireRequest, apiCall, stats_url]
  · intro env2 instances asg r r2 hpp h1 h2
    have e1 := buildCluster_peers env localInstance instances asg r h1
    have e2 := buildCluster_peers env2 localInstance instances asg r2 h2
    rw [hpp] at e2
    exact ⟨e2.trans e1.symm, e1⟩
  · intro instances asg localDns htls hlocal
    obtain ⟨st1, hloop⟩ := buildClusterLoop_returns env localInstance localDns htls hlocal instances
    exact ⟨⟨st1.initialClusterState, st1.initialCluster, none, st1.calls, st1.sent⟩,
      by simp [buildCluster, hloop]⟩

theorem buildClusterStep_probe_failure_frame_witness :
    probeFails demoEnv ⟨"i-d", some "d"⟩ "d" = true ∧
    buildClusterStep demoEnv demoLocal ⟨"new", ["i-a=http://a:2380"], [], []⟩
        ⟨"i-d", some "d"⟩ =
      .done ⟨"new", ["i-a=http://a:2380", "i-d=http://d:2380"],
        [⟨"d", "i-d", "stats/self", "GET", "", none⟩],
        [⟨"GET", "http://d:2379/v2/stats/self", none, none, none⟩]⟩ ∧
    ∃ r r2, buildCluster demoEnv ⟨.ok demoLocal, .ok liveGroup, none⟩ = .done r ∧
      buildCluster downEnv ⟨.ok demoLocal, .ok liveGroup, none⟩ = .done r2 ∧
      r.initialClusterState = "existing" ∧ r2.initialClusterState = "new" ∧
      r2.initialCluster = r.initialCluster :=
  have h := buildClusterStep_probe_failure_frame demoEnv demoLocal
    ⟨"new", ["i-a=http://a:2380"], [], []⟩ ⟨"i-d", some "d"⟩ "d" rfl (by decide) (by decide)
  ⟨by decide, h.1, _, _, rfl, rfl, rfl, rfl, (h.2.1 downEnv liveGroup none _ _ rfl rfl rfl).1⟩

/-! ## Lifecycle reconciler: the handler -/

/-- Claim C9. For an event whose transition is not
`autoscaling:EC2_INSTANCE_TERMINATING`, `handleLifecycleEvent` returns
`shouldContinue = true` with no error, makes no admin call at all and sends
no request, whatever the instance id of the event and whatever the world (so
whatever the member list) is. -/
theorem handleLifecycleEvent_other_transition (env : Env) (localInstance : Instance)
    (m : LifecycleMessage)
    (h : m.LifecycleTransition ≠ "autoscaling:EC2_INSTANCE_TERMINATING") :
    handleLifecycleEvent env localInstance m = .done ⟨true, none, [], []⟩ := by
  unfold handleLifecycleEvent
  simp [h]

theorem handleLifecycleEvent_other_transition_witness :
    handleLifecycleEvent (membersEnv [⟨"m1", "i-t", [], []⟩]) demoLocal
      ⟨"autoscaling:EC2_INSTANCE_LAUNCHING", "i-t"⟩ = .done ⟨true, none, [], []⟩ :=
  handleLifecycleEvent_other_transition (membersEnv [⟨"m1", "i-t", [], []⟩]) demoLocal
    ⟨"autoscaling:EC2_INSTANCE_LAUNCHING", "i-t"⟩ (by decide)

/-- Claim C6. For a terminating event with instance id `I`, when the member
list is fetched and decoded and no member has name `I`,
`handleLifecycleEvent` returns `shouldContinue = true` with no error; its
only admin call is the `GET` of `members`, and the only request sent is that
`GET` (so no `DELETE`). -/
theorem handleLifecycleEvent_non_member (env : Env) (localInstance : Instance) (dns : String)
    (m : LifecycleMessage) (body : String) (reqs : List HttpRequest) (members : etcdMembers)
    (hterm : m.LifecycleTransition = "autoscaling:EC2_INSTANCE_TERMINATING")
    (hlocal : localInstance.PrivateDnsName = some dns)
    (hget : getApiResponse env dns localInstance.InstanceId "members" "GET" =
      .done (.ok body, reqs))
    (hdec : env.decodeMembers body = .ok members)
    (hno : ∀ x ∈ members.Members, x.Name ≠ m.EC2InstanceID) :
    handleLifecycleEvent env localInstance m =
      .done ⟨true, none, [⟨dns, localInstance.InstanceId, "members", "GET", "", none⟩],
        [⟨"GET", env.clientProtocol ++ "://" ++ dns ++ ":2379/v2/members", none, none,
          clientTls env⟩]⟩ := by
  have hs := getApiResponseWithBody_sent env _ _ reqs hget
  have hacc := getApiResponseWithBody_ok_accepted env _ body reqs hget
  have hreqs : reqs = [⟨"GET", env.clientProtocol ++ "://" ++ dns ++ ":2379/v2/members",
      none, none, clientTls env⟩] := by
    rw [hs]
    unfold sentBy
    simp only [hacc, if_true]
    simp [wireRequest, apiCall, members_url]
  unfold handleLifecycleEvent
  simp [hterm, hlocal, hget, hdec, findMemberID_none members.Members m.EC2InstanceID hno,
    apiCall, hreqs]

theorem handleLifecycleEvent_non_member_witness :
    handleLifecycleEvent (membersEnv [⟨"m1", "i-b", [], []⟩, ⟨"m2", "i-c", [], []⟩]) demoLocal
      terminating = .done ⟨true, none, [⟨"a", "i-a", "members", "GET", "", none⟩],
        [⟨"GET", "http://a:2379/v2/members", none, none, none⟩]⟩ :=
  handleLifecycleEvent_non_member (membersEnv [⟨"m1", "i-b", [], []⟩, ⟨"m2", "i-c", [], []⟩])
    demoLocal "a" terminating "members" [⟨"GET", "http://a:2379/v2/members", none, none, none⟩]
    ⟨[⟨"m1", "i-b", [], []⟩, ⟨"m2", "i-c", [], []⟩]⟩
    rfl rfl rfl rfl (by decide)

/-- Claim C3, refuted as stated. First world: two members are named after the
terminating instance `i-t`, with ids `m1` and `m2`; the handler sends one
`DELETE`, to `members/m2`, and none to `members/m1`. Second world: the only
member named `i-t` has an empty id; the handler sends no `DELETE` and returns
`shouldContinue = true`. Third world: the only member named `i-t` has the id
`%zz`, for which `http.NewRequest` rejects the URL; the handler sends no
`DELETE` and returns the error. -/
theorem handleLifecycleEvent_first_match_counterexample :
    ((⟨"m1", "i-t", [], []⟩ : etcdMember) ∈
        [(⟨"m1", "i-t", [], []⟩ : etcdMember), ⟨"m2", "i-t", [], []⟩] ∧
      handleLifecycleEvent (membersEnv [⟨"m1", "i-t", [], []⟩, ⟨"m2", "i-t", [], []⟩])
          demoLocal terminating =
        .done ⟨false, none,
          [⟨"a", "i-a", "members", "GET", "", none⟩,
           ⟨"a", "i-a", "members/m2", "DELETE", "", none⟩],
          [⟨"GET", "http://a:2379/v2/members", none, none, none⟩,
           ⟨"DELETE", "http://a:2379/v2/members/m2", none, none, none⟩]⟩) ∧
    ((⟨"", "i-t", [], []⟩ : etcdMember) ∈ [(⟨"", "i-t", [], []⟩ : etcdMember)] ∧
      handleLifecycleEvent (membersEnv [⟨"", "i-t", [], []⟩]) demoLocal terminating =
        .done ⟨true, none, [⟨"a", "i-a", "members", "GET", "", none⟩],
          [⟨"GET", "http://a:2379/v2/members", none, none, none⟩]⟩) ∧
    ((⟨"%zz", "i-t", [], []⟩ : etcdMember) ∈ [(⟨"%zz", "i-t", [], []⟩ : etcdMember)] ∧
      handleLifecycleEvent (strictEnv [⟨"%zz", "i-t", [], []⟩]) demoLocal terminating =
        .done ⟨false,
          some "i-a: DELETE http://a:2379/v2/members/%zz: invalid URL escape",
          [⟨"a", "i-a", "members", "GET", "", none⟩,
           ⟨"a", "i-a", "members/%zz", "DELETE", "", none⟩],
          [⟨"GET", "http://a:2379/v2/members", none, none, none⟩]⟩) := by
  decide

/-- Claim C3, amended. For a terminating event with instance id `I`, when the
member list is fetched and decoded and the last member named `I` in it has a
non-empty id `M`, `handleLifecycleEvent` invokes the admin client exactly
twice, for the `GET` of `members` and for one `DELETE` of `members/M`, and
returns `shouldContinue = false`. The requests sent are the `GET` and, when
`http.NewRequest` accepts the URL
`<clientProtocol>://<local address>:2379/v2/members/M`, exactly one `DELETE`,
to that URL; when it rejects the URL no `DELETE` is sent. The handler returns
no error exactly when the `DELETE` returns without error. -/
theorem handleLifecycleEvent_removes_last_match (env : Env) (localInstance : Instance)
    (dns : String) (m : LifecycleMessage) (body : String) (reqs : List HttpRequest)
    (members : etcdMembers) (member : etcdMember)
    (hterm : m.LifecycleTransition = "autoscaling:EC2_INSTANCE_TERMINATING")
    (hlocal : localInstance.PrivateDnsName = some dns)
    (hget : getApiResponse env dns localInstance.InstanceId "members" "GET" =
      .done (.ok body, reqs))
    (hdec : env.decodeMembers body = .ok members)
    (hlast : (members.Members.filter (fun x => x.Name = m.EC2InstanceID)).getLast? =
      some member)
    (hid : member.ID ≠ "") :
    ∃ r, handleLifecycleEvent env localInstance m = .done r ∧
      r.shouldContinue = false ∧
      r.calls = [⟨dns, localInstance.InstanceId, "members", "GET", "", none⟩,
        ⟨dns, localInstance.InstanceId, "members/" ++ member.ID, "DELETE", "", none⟩] ∧
      r.sent =
        ⟨"GET", env.clientProtocol ++ "://" ++ dns ++ ":2379/v2/members", none, none,
          clientTls env⟩ ::
        (if env.NewRequest "DELETE"
            (env.clientProtocol ++ "://" ++ dns ++ ":2379/v2/members/" ++ member.ID) = none then
          [⟨"DELETE", env.clientProtocol ++ "://" ++ dns ++ ":2379/v2/members/" ++ member.ID,
            none, none, clientTls env⟩]
        else []) ∧
      (r.err = none ↔
        ∃ resp reqs2, getApiResponse env dns localInstance.InstanceId
          ("members/" ++ member.ID) "DELETE" = .done (.ok resp, reqs2)) := by
  have htls := getApiResponseWithBody_ok_tlsUsable env _ body reqs hget
  have hs := getApiResponseWithBody_sent env _ _ reqs hget
  have hacc := getApiResponseWithBody_ok_accepted env _ body reqs hget
  have hreqs : reqs = [⟨"GET", env.clientProtocol ++ "://" ++ dns ++ ":2379/v2/members",
      none, none, clientTls env⟩] := by
    rw [hs]
    unfold sentBy
    simp only [hacc, if_true]
    simp [wireRequest, apiCall, members_url]
  obtain ⟨d, hd⟩ := getApiResponseWithBody_returns env
    (apiCall dns localInstance.InstanceId ("members/" ++ member.ID) "DELETE") htls
  obtain ⟨res2, reqs2⟩ := d
  have hs2 := getApiResponseWithBody_sent env _ _ reqs2 hd
  have hreqs2 : reqs2 =
      (if env.NewRequest "DELETE"
          (env.clientProtocol ++ "://" ++ dns ++ ":2379/v2/members/" ++ member.ID) = none then
        [⟨"DELETE", env.clientProtocol ++ "://" ++ dns ++ ":2379/v2/members/" ++ member.ID,
          none, none, clientTls env⟩]
      else []) := by
    rw [hs2]
    unfold sentBy
    simp [wireRequest, apiCall, member_url]
  have hd2 : getApiResponse env dns localInstance.InstanceId ("members/" ++ member.ID)
      "DELETE" = .done (res2, reqs2) := hd
  unfold handleLifecycleEvent
  simp only [hterm, hlocal, hget, hdec,
    findMemberID_last members.Members m.EC2InstanceID member hlast, hid, hd2,
    ne_eq, not_true_eq_false, if_false]
  cases res2 with
  | error err =>
    refine ⟨_, rfl, rfl, rfl, ?_, ?_⟩
    · simp only [hreqs, ← hreqs2, List.singleton_append]
    · simp
  | ok resp =>
    refine ⟨_, rfl, rfl, rfl, ?_, ?_⟩
    · simp only [hreqs, ← hreqs2, List.singleton_append]
    · simp

theorem handleLifecycleEvent_removes_last_match_witness :
    ∃ r, handleLifecycleEvent (membersEnv [⟨"m1", "i-t", [], []⟩, ⟨"m2", "i-t", [], []⟩])
        demoLocal terminating = .done r ∧
      r.shouldContinue = false ∧
      r.calls = [⟨"a", "i-a", "members", "GET", "", none⟩,
        ⟨"a", "i-a", "members/m2", "DELETE", "", none⟩] ∧
      r.sent = [⟨"GET", "http://a:2379/v2/members", none, none, none⟩,
        ⟨"DELETE", "http://a:2379/v2/members/m2", none, none, none⟩] ∧
      (r.err = none ↔
        ∃ resp reqs2, getApiResponse (membersEnv [⟨"m1", "i-t", [], []⟩, ⟨"m2", "i-t", [], []⟩])
          "a" "i-a" "members/m2" "DELETE" = .done (.ok resp, reqs2)) :=
  handleLifecycleEvent_removes_last_match
    (membersEnv [⟨"m1", "i-t", [], []⟩, ⟨"m2", "i-t", [], []⟩]) demoLocal "a" terminating
    "members" [⟨"GET", "http://a:2379/v2/members", none, none, none⟩]
    ⟨[⟨"m1", "i-t", [], []⟩, ⟨"m2", "i-t", [], []⟩]⟩ ⟨"m2", "i-t", [], []⟩
    rfl rfl rfl rfl (by decide) (by decide)

/-! ## Lifecycle reconciler: the outer loop -/

/-- Claim C8. In awaiting-source, any number of consecutive not-found answers
(`ErrLifecycleHookNotFound`) leaves the loop in awaiting-source after one
10-second sleep per answer, without exit; any other acquisition error makes
the process exit through `log.Fatalf`, also after such a run of not-found
answers; and the first successful acquisition moves the loop to consuming,
with the event watch started on the acquired queue URL. -/
theorem watchLifecycleEvents_acquisition :
    (∀ queueUrls : List String,
      watchLifecycleEvents .awaitingSource (queueUrls.map hookNotFound) =
        some (.awaitingSource, List.replicate queueUrls.length (.sleep 10))) ∧
    (∀ (queueUrls : List String) (queueUrl msg : String),
      watchLifecycleEvents .awaitingSource
          (queueUrls.map hookNotFound ++ [.queueURL queueUrl (some (.other msg))]) =
        some (.exited ("ERROR: LifecycleEventQueueUrl: " ++ msg),
          List.replicate queueUrls.length (.sleep 10))) ∧
    (∀ (queueUrls : List String) (queueUrl : String),
      watchLifecycleEvents .awaitingSource
          (queueUrls.map hookNotFound ++ [.queueURL queueUrl none]) =
        some (.consuming queueUrl,
          List.replicate queueUrls.length (.sleep 10) ++ [.startWatch queueUrl])) := by
  refine ⟨watchLifecycleEvents_backoff, ?_, ?_⟩
  · intro queueUrls queueUrl msg
    rw [watchLifecycleEvents_append, watchLifecycleEvents_backoff]
    simp [watchLifecycleEvents, watchLifecycleEventsStep]
  · intro queueUrls queueUrl
    rw [watchLifecycleEvents_append, watchLifecycleEvents_backoff]
    simp [watchLifecycleEvents, watchLifecycleEventsStep]

/-- Claim C5, refuted as stated. When the event watch on queue `q` returns
nil, the next state is not awaiting-source: the loop reaches
`panic("not reached")`, and the process ends without a fatal error exit. -/
theorem watchLifecycleEvents_session_end_counterexample :
    watchLifecycleEventsStep (.consuming "q") (.watchReturned none) =
        some (.panicked "not reached", []) ∧
      watchLifecycleEventsStep (.consuming "q") (.watchReturned none) ≠
        some (.awaitingSource, []) ∧
      watchLifecycleEvents .awaitingSource [.queueURL "q" none, .watchReturned none] =
        some (.panicked "not reached", [.startWatch "q"]) := by
  decide

/-- Claim C5, amended. A consuming session that ends never leads back to
awaiting-source: when the event watch returns nil the loop reaches
`panic("not reached")`, and when it returns an error the process exits
through `log.Fatalf`.  The only step into awaiting-source is the not-found
backoff taken from awaiting-source; every step ends in awaiting-source, in
consuming, in a fatal exit or in that panic; and neither a fatal exit nor
the panic has a further step. -/
theorem watchLifecycleEventsStep_session_end :
    (∀ queueUrl : String,
      watchLifecycleEventsStep (.consuming queueUrl) (.watchReturned none) =
        some (.panicked "not reached", [])) ∧
    (∀ queueUrl err : String,
      watchLifecycleEventsStep (.consuming queueUrl) (.watchReturned (some err)) =
        some (.exited ("ERROR: WatchLifecycleEvents: " ++ err), [])) ∧
    (∀ (st : LoopState) (input : LoopInput) (eff : List Effect),
      watchLifecycleEventsStep st input = some (.awaitingSource, eff) →
        st = .awaitingSource ∧ eff = [.sleep 10] ∧
          ∃ queueUrl, input = .queueURL queueUrl (some .ErrLifecycleHookNotFound)) ∧
    (∀ (st st1 : LoopState) (input : LoopInput) (eff : List Effect),
      watchLifecycleEventsStep st input = some (st1, eff) →
        st1 = .awaitingSource ∨ (∃ queueUrl, st1 = .consuming queueUrl) ∨
          (∃ msg, st1 = .exited msg) ∨ st1 = .panicked "not reached") ∧
    (∀ (msg : String) (input : LoopInput),
      watchLifecycleEventsStep (.exited msg) input = none ∧
        watchLifecycleEventsStep (.panicked msg) input = none) := by
  refine ⟨fun _ => rfl, fun _ _ => rfl, ?_, ?_, fun _ _ => ⟨rfl, rfl⟩⟩
  · intro st input eff h
    cases st <;> cases input <;> simp only [watchLifecycleEventsStep] at h
    · rename_i queueUrl err
      cases err with
      | none => simp at h
      | some e =>
        cases e with
        | ErrLifecycleHookNotFound =>
          simp only [Option.some.injEq, Prod.mk.injEq, true_and] at h
          exact ⟨rfl, h.symm, queueUrl, rfl⟩
        | other msg => simp at h
    all_goals first
      | (exact absurd h (by simp))
      | (rename_i e; cases e <;> simp at h)
  · intro st st1 input eff h
    cases st <;> cases input <;> simp only [watchLifecycleEventsStep] at h
    · rename_i queueUrl err
      cases err with
      | none =>
        simp only [Option.some.injEq, Prod.mk.injEq] at h
        exact Or.inr (Or.inl ⟨queueUrl, h.1.symm⟩)
      | some e =>
        cases e with
        | ErrLifecycleHookNotFound =>
          simp only [Option.some.injEq, Prod.mk.injEq] at h
          exact Or.inl h.1.symm
        | other msg =>
          simp only [Option.some.injEq, Prod.mk.injEq] at h
          exact Or.inr (Or.inr (Or.inl ⟨_, h.1.symm⟩))
    all_goals first
      | (exact absurd h (by simp))
      | (rename_i e; cases e <;> simp only [Option.some.injEq, Prod.mk.injEq] at h
         · exact Or.inr (Or.inr (Or.inr h.1.symm))
         · exact Or.inr (Or.inr (Or.inl ⟨_, h.1.symm⟩)))

theorem watchLifecycleEventsStep_session_end_witness :
    watchLifecycleEventsStep (.consuming "q") (.watchReturned none) =
        some (.panicked "not reached", []) ∧
      watchLifecycleEventsStep (.consuming "q") (.watchReturned (some "EOF")) =
        some (.exited "ERROR: WatchLifecycleEvents: EOF", []) ∧
      (.awaitingSource = LoopState.awaitingSource ∧ [Effect.sleep 10] = [.sleep 10] ∧
        ∃ queueUrl, hookNotFound "" = .queueURL queueUrl (some .ErrLifecycleHookNotFound)) :=
  have h := watchLifecycleEventsStep_session_end
  ⟨h.1 "q", h.2.1 "q" "EOF", h.2.2.1 .awaitingSource (hookNotFound "") [.sleep 10] rfl⟩

/-! ## Bootstrap tool: the emitted parameter set -/

/-- Claim C4, evaluated where the code departs from it. The instance lookup
succeeds and the membership enumeration fails, so `buildCluster` returns the
error `list members: ...`; `main` does not look at that error: it is not
fatal, and the whole parameter set is printed, with empty values after
`ETCD_INITIAL_CLUSTER_STATE=` and `ETCD_INITIAL_CLUSTER=`. -/
theorem main_prints_after_enumeration_failure :
    buildCluster (mainEnv (demoFlags "") demoEnv) brokenCluster =
        .done ⟨"", [], some "list members: RequestLimitExceeded: Request limit exceeded.",
          [], []⟩ ∧
      main (demoFlags "") demoEnv (.ok "i-a") (fun _ _ => brokenCluster) =
        .done [
          "ETCD_NAME=i-a",
          "ETCD_ADVERTISE_CLIENT_URLS=http://a:2379",
          "ETCD_LISTEN_CLIENT_URLS=http://0.0.0.0:2379",
          "ETCD_LISTEN_PEER_URLS=http://0.0.0.0:2380",
          "ETCD_INITIAL_CLUSTER_STATE=",
          "ETCD_INITIAL_CLUSTER=",
          "ETCD_INITIAL_ADVERTISE_PEER_URLS=http://a:2380",
          "ETCD_INITIAL_CLUSTER_TOKEN=arn:aws:autoscaling:eu-west-1:1:autoScalingGroup:etcd"] := by
  decide

/-- Claim C10. With certificate path `c`, a local instance with id `L` and
address `A`, and `buildCluster` returning state `S` and initial peers `P`,
`main` prints, in this order, `ETCD_NAME`, `ETCD_ADVERTISE_CLIENT_URLS`,
`ETCD_LISTEN_CLIENT_URLS`, `ETCD_LISTEN_PEER_URLS`,
`ETCD_INITIAL_CLUSTER_STATE=S`, `ETCD_INITIAL_CLUSTER=` followed by `P` joined
with commas, `ETCD_INITIAL_ADVERTISE_PEER_URLS`, and then
`ETCD_INITIAL_CLUSTER_TOKEN=G` exactly when the group descriptor `G` is
available. The scheme in every URL, and the peer and client protocols
`buildCluster` runs with, is `https` if `c` is not empty and `http`
otherwise. -/
theorem main_parameter_set (flags : Flags) (world : Env)
    (DiscoverInstanceID : Except String String) (newCluster : String → String → Cluster)
    (instanceID L A : String) (r : BuildResult)
    (hid : (if flags.instanceID = "" then DiscoverInstanceID else .ok flags.instanceID) =
      .ok instanceID)
    (hinst : (newCluster instanceID flags.clusterTagName).Instance = .ok ⟨L, some A⟩)
    (hbuild : buildCluster (mainEnv flags world) (newCluster instanceID flags.clusterTagName) =
      .done r) :
    main flags world DiscoverInstanceID newCluster =
        .done ([
          "ETCD_NAME=" ++ L,
          "ETCD_ADVERTISE_CLIENT_URLS=" ++
            (if flags.etcdCertFile ≠ "" then "https" else "http") ++ "://" ++ A ++ ":2379",
          "ETCD_LISTEN_CLIENT_URLS=" ++
            (if flags.etcdCertFile ≠ "" then "https" else "http") ++ "://0.0.0.0:2379",
          "ETCD_LISTEN_PEER_URLS=" ++
            (if flags.etcdCertFile ≠ "" then "https" else "http") ++ "://0.0.0.0:2380",
          "ETCD_INITIAL_CLUSTER_STATE=" ++ r.initialClusterState,
          "ETCD_INITIAL_CLUSTER=" ++ String.intercalate "," r.initialCluster,
          "ETCD_INITIAL_ADVERTISE_PEER_URLS=" ++
            (if flags.etcdCertFile ≠ "" then "https" else "http") ++ "://" ++ A ++ ":2380"] ++
          (match (newCluster instanceID flags.clusterTagName).AutoscalingGroup with
           | some G => ["ETCD_INITIAL_CLUSTER_TOKEN=" ++ G]
           | none => [])) ∧
      (mainEnv flags world).clientProtocol =
        (if flags.etcdCertFile ≠ "" then "https" else "http") ∧
      (mainEnv flags world).peerProtocol =
        (if flags.etcdCertFile ≠ "" then "https" else "http") := by
  have hp : (mainEnv flags world).clientProtocol =
        (if flags.etcdCertFile ≠ "" then "https" else "http") ∧
      (mainEnv flags world).peerProtocol =
        (if flags.etcdCertFile ≠ "" then "https" else "http") := by
    unfold mainEnv
    by_cases hc : flags.etcdCertFile = "" <;> simp [hc]
  refine ⟨?_, hp.1, hp.2⟩
  unfold main
  simp only [hid, hinst, hbuild, hp.1, hp.2]
  cases (newCluster instanceID flags.clusterTagName).AutoscalingGroup with
  | none => simp
  | some G => simp

theorem main_parameter_set_witness :
    main (demoFlags "/etc/etcd/cert.pem") demoEnv (.error "no metadata")
        (fun _ _ => smallCluster) =
      .done [
        "ETCD_NAME=i-a",
        "ETCD_ADVERTISE_CLIENT_URLS=https://a:2379",
        "ETCD_LISTEN_CLIENT_URLS=https://0.0.0.0:2379",
        "ETCD_LISTEN_PEER_URLS=https://0.0.0.0:2380",
        "ETCD_INITIAL_CLUSTER_STATE=new",
        "ETCD_INITIAL_CLUSTER=i-a=https://a:2380",
        "ETCD_INITIAL_ADVERTISE_PEER_URLS=https://a:2380",
        "ETCD_INITIAL_CLUSTER_TOKEN=arn:aws:autoscaling:eu-west-1:1:autoScalingGroup:etcd"] :=
  (main_parameter_set (demoFlags "/etc/etcd/cert.pem") demoEnv (.error "no metadata")
    (fun _ _ => smallCluster) "i-a" "i-a" "a" ⟨"new", ["i-a=https://a:2380"], none, [], []⟩
    rfl rfl rfl).1

end EtcdAwsTools
